import Mathlib

/-!
Verification of the LittleHeroes chat backend.

This file gives a shallow embedding of the request-orchestration pipeline of
the repository: the primary-RAG context loader (`ai/pipelines/retrieve_primary.ts`),
the prompt builder and safety filter (`answer_controller`, embedded in
`backend/services/gemini_client.ts`'s source bundle), the Gemini fallback
client (`callGemini`), and the chat request handler (`handleChatRequest`).

Strings are modelled as `List Char` (`Str`).  JavaScript JSON values are
modelled by the mutual inductive `JsVal`/`JsObj`/`JsArr`; platform builtins
(`String(x)`, `JSON.stringify`, `Array.prototype.join`, the `in` operator,
regex replacement for the two concrete template regexes) are modelled by
executable Lean functions documented at their definitions.
-/

/-- JavaScript strings, modelled as lists of characters. -/
abbrev Str := List Char

/-- Characters matched by the JavaScript regex class `\s`
(the common whitespace characters used by the repository's data). -/
def isWsC (c : Char) : Bool :=
  c = ' ' || c = '\t' || c = '\n' || c = '\r'

/-- Characters matched by the JavaScript regex class `\w`. -/
def isWordChar (c : Char) : Bool :=
  ('a' ≤ c && c ≤ 'z') || ('A' ≤ c && c ≤ 'Z') || ('0' ≤ c && c ≤ '9') || c = '_'

/-- Characters matched by the JavaScript regex class `[\w.]`. -/
def isPathChar (c : Char) : Bool :=
  isWordChar c || c = '.'

/-- Model of `String.prototype.trim`: drop whitespace from both ends. -/
def trimL (s : Str) : Str :=
  ((s.dropWhile isWsC).reverse.dropWhile isWsC).reverse

/-- Model of `String.prototype.toLowerCase` (ASCII range, which is all the
repository's markers and keywords use). -/
def toLowerL (s : Str) : Str :=
  s.map Char.toLower

/-- Model of `String.prototype.isPrefix-test` used by substring search:
`isPrefixL needle hay` is true when `needle` begins `hay`. -/
def isPrefixL : Str → Str → Bool
  | [], _ => true
  | _ :: _, [] => false
  | a :: as, b :: bs => a = b && isPrefixL as bs

/-- Model of `String.prototype.includes`: `containsSub needle hay` is true
when `needle` occurs contiguously inside `hay`. -/
def containsSub (needle : Str) : Str → Bool
  | [] => needle.isEmpty
  | c :: rest => isPrefixL needle (c :: rest) || containsSub needle rest

/-- Join a list of strings with a separator (model of `Array.prototype.join`
once the elements have been converted to strings). -/
def joinStrList (sep : Str) : List Str → Str
  | [] => []
  | [s] => s
  | s :: rest => s ++ sep ++ joinStrList sep rest

/-- Split a string at every occurrence of the character `sep`
(model of `String.prototype.split` with a single-character separator). -/
def splitOnChar (sep : Char) : Str → List Str
  | [] => [[]]
  | c :: cs =>
    if c = sep then [] :: splitOnChar sep cs
    else
      match splitOnChar sep cs with
      | s :: ss => (c :: s) :: ss
      | [] => [[c]]

/-- Whitespace-run collapsing used by the handler's `normalize`:
`collapseGo prevWs s` replaces each maximal whitespace run with a single
space (`prevWs` records whether the previous character was whitespace). -/
def collapseGo : Bool → Str → Str
  | _, [] => []
  | prevWs, c :: rest =>
    if isWsC c then
      if prevWs then collapseGo true rest
      else ' ' :: collapseGo true rest
    else c :: collapseGo false rest

/-- Model of the handler's `normalize`:
`String(text || "").trim().replace(/\s+/g, " ")`. -/
def normalizeL (s : Str) : Str :=
  collapseGo false (trimL s)

mutual
/-- JavaScript values as stored in the repository's JSON knowledge files and
template-variable maps: strings, integers, booleans, `null`, `undefined`,
objects and arrays.  (The repository's data never needs non-integral
numbers.) -/
inductive JsVal : Type where
  | str (s : Str)
  | num (n : Int)
  | boolean (b : Bool)
  | null
  | undefinedVal
  | obj (fields : JsObj)
  | arr (elems : JsArr)
  deriving DecidableEq

/-- Field list of a JavaScript object. -/
inductive JsObj : Type where
  | nil
  | cons (key : Str) (value : JsVal) (rest : JsObj)
  deriving DecidableEq

/-- Element list of a JavaScript array. -/
inductive JsArr : Type where
  | nil
  | cons (value : JsVal) (rest : JsArr)
  deriving DecidableEq
end

/-- Convert a `JsObj` field list to a Lean association list. -/
def jsObjToList : JsObj → List (Str × JsVal)
  | .nil => []
  | .cons k v rest => (k, v) :: jsObjToList rest

/-- Convert a `JsArr` element list to a Lean list. -/
def jsArrToList : JsArr → List JsVal
  | .nil => []
  | .cons v rest => v :: jsArrToList rest

/-- Length of a `JsArr`. -/
def jsArrLength : JsArr → Nat
  | .nil => 0
  | .cons _ rest => jsArrLength rest + 1

/-- JavaScript truthiness of a value (`""`, `0`, `false`, `null` and
`undefined` are falsy; objects and arrays are truthy). -/
def jsTruthy : JsVal → Bool
  | .str s => !s.isEmpty
  | .num n => n ≠ 0
  | .boolean b => b
  | .null => false
  | .undefinedVal => false
  | .obj _ => true
  | .arr _ => true

/-- Property access `v[key]` as used by the repository on plain data:
an object yields the field's value (or `undefined`), everything else
yields `undefined`.  (Array index properties are handled separately by
the template path traversal, which is the only place they can occur.) -/
def jsGet : JsVal → Str → JsVal
  | .obj fs, k =>
    match (jsObjToList fs).find? (fun p => p.1 = k) with
    | some p => p.2
    | none => .undefinedVal
  | _, _ => .undefinedVal

/-- Decimal rendering of an integer (model of JavaScript number-to-string
for integral values). -/
def intStr (n : Int) : Str :=
  if n < 0 then '-' :: (Nat.repr n.natAbs).data
  else (Nat.repr n.natAbs).data

mutual
/-- Model of the JavaScript `String(x)` conversion for the values of
`JsVal`: strings unchanged, `null`/`undefined` spelled out, objects
rendered as `[object Object]`, arrays joined by commas with nullish
elements becoming empty. -/
def jsToString : JsVal → Str
  | .str s => s
  | .num n => intStr n
  | .boolean b => if b then "true".data else "false".data
  | .null => "null".data
  | .undefinedVal => "undefined".data
  | .obj _ => "[object Object]".data
  | .arr es => jsArrJoinComma es

/-- Model of `Array.prototype.toString` (i.e. `join(",")`); `null` and
`undefined` elements render as the empty string. -/
def jsArrJoinComma : JsArr → Str
  | .nil => []
  | .cons v rest =>
    let s := match v with
      | .null => []
      | .undefinedVal => []
      | w => jsToString w
    match rest with
    | .nil => s
    | .cons _ _ => s ++ ',' :: jsArrJoinComma rest
end

/-- Escape a character for a JSON string literal (the cases relevant to the
repository's data). -/
def escapeJsonChar (c : Char) : Str :=
  if c = '"' then ['\\', '"']
  else if c = '\\' then ['\\', '\\']
  else if c = '\n' then ['\\', 'n']
  else [c]

/-- Escape a whole string for a JSON string literal. -/
def escapeJson (s : Str) : Str :=
  s.foldr (fun c acc => escapeJsonChar c ++ acc) []

mutual
/-- Model of the `JSON.stringify` builtin as applied by the repository
(indentation is elided: no claim depends on the exact rendering, only on
the text being present between the section headers). Fields with
`undefined` values are skipped; `undefined` array elements render as
`null`. -/
def jsonStringify : JsVal → Str
  | .str s => '"' :: escapeJson s ++ ['"']
  | .num n => intStr n
  | .boolean b => if b then "true".data else "false".data
  | .null => "null".data
  | .undefinedVal => "null".data
  | .obj fs => '{' :: jsonStringifyFields fs ++ ['}']
  | .arr es => '[' :: jsonStringifyElems es ++ [']']

/-- Stringify the fields of an object, skipping `undefined` values. -/
def jsonStringifyFields : JsObj → Str
  | .nil => []
  | .cons k v rest =>
    match v with
    | .undefinedVal => jsonStringifyFields rest
    | w =>
      let item := '"' :: escapeJson k ++ ['"'] ++ [':'] ++ jsonStringify w
      match rest with
      | .nil => item
      | .cons _ _ _ =>
        match jsonStringifyFields rest with
        | [] => item
        | more => item ++ ',' :: more

/-- Stringify the elements of an array. -/
def jsonStringifyElems : JsArr → Str
  | .nil => []
  | .cons v rest =>
    let item := jsonStringify v
    match rest with
    | .nil => item
    | .cons _ _ => item ++ ',' :: jsonStringifyElems rest
end

/-- Top-level `JSON.stringify` interpolated into a template literal:
`JSON.stringify(undefined)` is `undefined`, which the template literal
renders as the text `undefined`. -/
def jsonStringifyTop : JsVal → Str
  | .undefinedVal => "undefined".data
  | v => jsonStringify v

/-!
## Template rendering (`renderTemplate` in the answer controller)

The source applies two global regex replacements:
first `/\{\{\s*(\w+)\s*\}\}/g` (flat keys looked up in `vars`, `undefined`
becoming the empty string), then `/\{\{\s*([\w.]+)\s*\}\}/g` (dotted paths
traversed through `vars`, arrays joined with `". "`, anything unresolved
becoming the empty string).  A global regex replacement scans left to
right, replaces each leftmost match and continues scanning after the match
without rescanning the replacement text; `tryMatchAt` matches one of the
two regexes at the current position (both regexes are backtracking-free at
these patterns, so greedy matching is exact). -/

/-- Try to match `{{` `\s*` token `\s*` `}}` at the head of `l`, where the
token characters are those accepted by `isTok`; returns the token and the
remainder of the input after the match. -/
def tryMatchAt (isTok : Char → Bool) (l : Str) : Option (Str × Str) :=
  match l with
  | c₁ :: c₂ :: rest =>
    if c₁ = '{' then
      if c₂ = '{' then
        let r1 := rest.dropWhile isWsC
        let tok := r1.takeWhile isTok
        if tok.isEmpty then none
        else
          match (r1.dropWhile isTok).dropWhile isWsC with
          | '}' :: '}' :: tail => some (tok, tail)
          | _ => none
      else none
    else none
  | _ => none

theorem tryMatchAt_length {isTok : Char → Bool} {l tok tail : Str}
    (h : tryMatchAt isTok l = some (tok, tail)) : tail.length < l.length := by
  match l with
  | [] => simp [tryMatchAt] at h
  | [c] => simp [tryMatchAt] at h
  | c₁ :: c₂ :: rest =>
    simp only [tryMatchAt] at h
    split_ifs at h
    split at h
    · next tl heq =>
      simp only [Option.some.injEq, Prod.mk.injEq] at h
      obtain ⟨h₁, h₂⟩ := h
      subst h₂
      have l2 : (((rest.dropWhile isWsC).dropWhile isTok).dropWhile isWsC).length ≤ rest.length :=
        le_trans (List.dropWhile_sublist _).length_le
          (le_trans (List.dropWhile_sublist _).length_le (List.dropWhile_sublist _).length_le)
      rw [heq] at l2
      simp only [List.length_cons] at l2 ⊢
      omega
    · exact absurd h (by simp)

/-- One global regex replacement with fuel (the fuel is always at least the
input length, so it never runs out; it only makes the recursion
structural). -/
def scanGo (isTok : Char → Bool) (repl : Str → Str) : Nat → Str → Str
  | 0, l => l
  | _ + 1, [] => []
  | fuel + 1, c :: cs =>
    match tryMatchAt isTok (c :: cs) with
    | some (tok, tail) => repl tok ++ scanGo isTok repl fuel tail
    | none => c :: scanGo isTok repl fuel cs

/-- One global regex replacement over the whole input: replace every
leftmost match of the `{{token}}` pattern by `repl token`, never rescanning
replacement text. -/
def scanReplace (isTok : Char → Bool) (repl : Str → Str) (l : Str) : Str :=
  scanGo isTok repl l.length l

theorem scanGo_fuel_irrel (isTok : Char → Bool) (repl : Str → Str) :
    ∀ fuel l fuel', l.length ≤ fuel → l.length ≤ fuel' →
      scanGo isTok repl fuel l = scanGo isTok repl fuel' l := by
  intro fuel
  induction fuel with
  | zero =>
    intro l fuel' h _
    have : l = [] := List.eq_nil_of_length_eq_zero (Nat.le_zero.mp h)
    subst this
    cases fuel' <;> rfl
  | succ f ih =>
    intro l fuel' h h'
    match l, fuel' with
    | [], fuel' => cases fuel' <;> rfl
    | c :: cs, 0 => simp at h'
    | c :: cs, f' + 1 =>
      cases hm : tryMatchAt isTok (c :: cs) with
      | some r =>
        obtain ⟨tok, tail⟩ := r
        have hlen := tryMatchAt_length hm
        simp only [List.length_cons] at h h' hlen
        simp only [scanGo, hm]
        rw [ih tail f' (by omega) (by omega)]
      | none =>
        simp only [List.length_cons] at h h'
        simp only [scanGo, hm]
        rw [ih cs f' (by omega) (by omega)]

theorem scanReplace_nil (isTok : Char → Bool) (repl : Str → Str) :
    scanReplace isTok repl [] = [] := rfl

theorem scanReplace_cons_none {isTok : Char → Bool} {repl : Str → Str} {c : Char} {cs : Str}
    (h : tryMatchAt isTok (c :: cs) = none) :
    scanReplace isTok repl (c :: cs) = c :: scanReplace isTok repl cs := by
  simp only [scanReplace, List.length_cons, scanGo, h]

theorem scanReplace_cons_some {isTok : Char → Bool} {repl : Str → Str} {c : Char}
    {cs tok tail : Str} (h : tryMatchAt isTok (c :: cs) = some (tok, tail)) :
    scanReplace isTok repl (c :: cs) = repl tok ++ scanReplace isTok repl tail := by
  have hlen := tryMatchAt_length h
  simp only [List.length_cons] at hlen
  simp only [scanReplace, List.length_cons, scanGo, h]
  rw [scanGo_fuel_irrel isTok repl cs.length tail tail.length (by omega) (by omega)]

/-- Canonical decimal representation of an array index: the strings that
are own index properties of a JavaScript array (`"0"`, `"1"`, …, no
leading zeros). -/
def natCanonIndex (s : Str) : Option Nat :=
  if s.all Char.isDigit && !s.isEmpty && (s.length = 1 || s.head? ≠ some '0') then
    some (s.foldl (fun a c => a * 10 + (c.toNat - '0'.toNat)) 0)
  else none

/-- Element of a `JsArr` at an index. -/
def jsArrGet : JsArr → Nat → JsVal
  | .nil, _ => .undefinedVal
  | .cons v _, 0 => v
  | .cons _ rest, n + 1 => jsArrGet rest n

/-- One step of the dotted-path traversal in the second replacement pass:
the source checks `value && typeof value === 'object' && key in value`
and then reads `value[key]`.  Objects expose their fields; arrays expose
their canonical index properties and `length`; everything else (including
`null`, which is falsy, and primitives, whose `typeof` is not `object`)
fails the check. -/
def pathStep (v : JsVal) (k : Str) : Option JsVal :=
  match v with
  | .obj fs =>
    match (jsObjToList fs).find? (fun p => p.1 = k) with
    | some p => some p.2
    | none => none
  | .arr es =>
    if k = "length".data then some (.num (jsArrLength es))
    else
      match natCanonIndex k with
      | some i => if i < jsArrLength es then some (jsArrGet es i) else none
      | none => none
  | _ => none

/-- Traverse a dotted path from a starting value, failing as soon as one
segment fails the source's object-and-membership check. -/
def pathResolve (v : JsVal) : List Str → Option JsVal
  | [] => some v
  | k :: ks =>
    match pathStep v k with
    | some w => pathResolve w ks
    | none => none

/-- Replacement for a flat `{{key}}` token in the first pass:
`vars[key]` with `undefined` becoming the empty string and any other value
going through `String(...)`. -/
def templateFlatValue (vars : JsObj) (tok : Str) : Str :=
  match (jsObjToList vars).find? (fun p => p.1 = tok) with
  | none => []
  | some p =>
    match p.2 with
    | .undefinedVal => []
    | v => jsToString v

/-- Conversion of one array element by `Array.prototype.join`:
`null` and `undefined` render as the empty string. -/
def joinElemStr (v : JsVal) : Str :=
  match v with
  | .null => []
  | .undefinedVal => []
  | w => jsToString w

/-- Replacement for a dotted `{{a.b.c}}` token in the second pass: traverse
the path from the `vars` object; an unresolved path yields the empty
string, an array joins its elements with `". "`, `null`/`undefined` yield
the empty string, anything else goes through `String(...)`. -/
def templatePathValue (vars : JsObj) (tok : Str) : Str :=
  match pathResolve (.obj vars) (splitOnChar '.' tok) with
  | none => []
  | some v =>
    match v with
    | .arr es => joinStrList ". ".data ((jsArrToList es).map joinElemStr)
    | .undefinedVal => []
    | .null => []
    | w => jsToString w

/-- Model of the source's `renderTemplate`: the flat-key pass followed by
the dotted-path pass. -/
def renderTemplate (template : Str) (vars : JsObj) : Str :=
  scanReplace isPathChar (templatePathValue vars)
    (scanReplace isWordChar (templateFlatValue vars) template)

example :
    renderTemplate ['{', '{', 'a', '}', '}'] (.cons "a".data (.str "xy".data) .nil)
      = "xy".data := by decide
example :
    renderTemplate ['{', '{', 'a', '.', 'b', '}', '}']
      (.cons "a".data (.obj (.cons "b".data (.str "z".data) .nil)) .nil)
      = "z".data := by decide
example :
    renderTemplate ['{', '{', 'q', '}', '}'] .nil = [] := by decide

/-!
## Answer controller: safety config, safety filter, prompt builder
(from the `answer_controller` part of the source bundle)
-/

/-- Safety configuration bundle (`SafetyConfig` in the source).  The source
stores the raw `hard_blocked_topics` entries and applies `String(topic)`
at match time; here the entries are stringified on load, which composes to
the same matching behaviour. -/
structure SafetyConfig where
  forbiddenTopics : List Str
  childSafeRules : Str
  escalationPolicy : Str
  deriving DecidableEq

/-- Model of `loadSafetyConfig`, taking the parsed contents of
`forbidden_topics.json` and the two text files as arguments (the
filesystem reads themselves are outside the core). -/
def loadSafetyConfig (forbiddenJson : JsVal) (childSafeRules escalationPolicy : Str) :
    SafetyConfig :=
  let forbiddenTopics :=
    match jsGet forbiddenJson "hard_blocked_topics".data with
    | .arr es => (jsArrToList es).map jsToString
    | _ => []
  ⟨forbiddenTopics, childSafeRules, escalationPolicy⟩

/-- Model of `containsForbiddenTopic`: case-insensitive substring match of
any topic in the answer text. -/
def containsForbiddenTopic (text : Str) (topics : List Str) : Bool :=
  let lower := toLowerL text
  topics.any (fun topic => containsSub (toLowerL topic) lower)

/-- The personal-information keywords tested by `asksForPersonalInfo`. -/
def piiKeywords : List Str :=
  ["address".data, "phone".data, "email".data, "last name".data, "full name".data]

/-- Model of `asksForPersonalInfo`: keyword heuristics over the lowercased
answer text. -/
def asksForPersonalInfo (text : Str) : Bool :=
  let lower := toLowerL text
  containsSub "address".data lower || containsSub "phone".data lower ||
    containsSub "email".data lower || containsSub "last name".data lower ||
    containsSub "full name".data lower

/-- Model of `enforceSafety`: refuse on a forbidden topic, then on a
personal-information request, otherwise pass the answer through.
(The guardrails argument is accepted and ignored, as in the source.) -/
def enforceSafety (answer : Str) (safety : SafetyConfig) (_guardrails : JsVal)
    (refusalText : Str) : Str :=
  if containsForbiddenTopic answer safety.forbiddenTopics then refusalText
  else if asksForPersonalInfo answer then refusalText
  else answer

/-- Contents of the four prompt template files read by the answer
controller (empty when the file is missing, as `readPrompt` returns). -/
structure PromptFiles where
  system : Str
  character : Str
  answerWithRag : Str
  refusal : Str
  deriving DecidableEq

/-- Input package for `buildRagOnlyPrompt`.  `character` is typed `string`
in the source but receives the raw identity value, so it is a `JsVal`
here; `refusalText` is the optional override. -/
structure RagAnswerInput where
  question : Str
  context : Str
  character : JsVal
  refusalText : Option Str
  guardrails : JsVal
  deriving DecidableEq

/-- Output prompt package of `buildRagOnlyPrompt`. -/
structure RagPrompt where
  system : Str
  user : Str
  shouldRefuse : Bool
  deriving DecidableEq

/-- Nullish coalescing `input.character ?? ""`. -/
def charOrEmpty : JsVal → JsVal
  | .null => .str []
  | .undefinedVal => .str []
  | v => v

/-- Model of `buildRagOnlyPrompt`: load templates, trim the context,
compute the refusal flag from the trimmed context length, render the
system and user prompts. -/
def buildRagOnlyPrompt (input : RagAnswerInput) (files : PromptFiles) : RagPrompt :=
  let refusalText := input.refusalText.getD files.refusal
  let context := trimL input.context
  let shouldRefuse := context.isEmpty
  let charV := charOrEmpty input.character
  let system := joinStrList "\n\n".data
    (([files.system,
       renderTemplate files.character (.cons "character".data charV .nil)]).filter
      (fun s => !s.isEmpty))
  let user := renderTemplate files.answerWithRag
    (.cons "context".data (.str context)
      (.cons "question".data (.str input.question)
        (.cons "character".data charV
          (.cons "refusal_text".data (.str refusalText)
            (.cons "guardrails".data
              (if jsTruthy input.guardrails then input.guardrails else .obj .nil) .nil)))))
  ⟨system, user, shouldRefuse⟩

/-- Model of `buildRefusalText`: split the refusal file into lines
(`/\r?\n/`; trimming each line also removes a stray carriage return), trim
them, drop empties, and pick one.  The random choice
`Math.floor(Math.random() * options.length)` is modelled by the index
parameter reduced modulo the number of options. -/
def buildRefusalText (raw : Str) (randIdx : Nat) : Str :=
  let options := ((splitOnChar '\n' raw).map trimL).filter (fun l => !l.isEmpty)
  match options with
  | [] => []
  | _ => options.getD (randIdx % options.length) []

/-!
## Primary RAG context loader (`ai/pipelines/retrieve_primary.ts`)
-/

/-- Model of `formatSection`:
the template literal `## ${title}\n${JSON.stringify(data, null, 2)}\n`. -/
def formatSection (title : Str) (data : JsVal) : Str :=
  "## ".data ++ title ++ '\n' :: (jsonStringifyTop data ++ ['\n'])

/-- Model of `Object.entries` for the values on which the source calls it
(objects, and arrays, whose `typeof` is also `object`). -/
def jsEntries : JsVal → List (Str × JsVal)
  | .obj fs => jsObjToList fs
  | .arr es => (jsArrToList es).enum.map (fun p => ((Nat.repr p.1).data, p.2))
  | _ => []

/-- Model of `formatVirtues`: a markdown list of the entries of the
virtues object, empty when the value is not an object or has no
entries. -/
def formatVirtues (virtues : JsVal) : Str :=
  match virtues with
  | .obj _ | .arr _ =>
    let entries := jsEntries virtues
    if entries.isEmpty then []
    else
      "## Character Virtues\n".data ++
        joinStrList "\n".data
          (entries.map (fun p => "- **".data ++ p.1 ++ "**: ".data ++ jsToString p.2)) ++
        ['\n']
  | _ => []

/-- Model of `formatArraySection`: a markdown list of the items, empty when
the value is not a non-empty array. -/
def formatArraySection (title : Str) (items : JsVal) : Str :=
  match items with
  | .arr es =>
    match jsArrToList es with
    | [] => []
    | elems =>
      "## ".data ++ title ++ '\n' ::
        (joinStrList "\n".data (elems.map (fun item => "- ".data ++ jsToString item)) ++ ['\n'])
  | _ => []

/-- `x || []` on a candidate list value. -/
def jsOrEmptyArr (v : JsVal) : JsVal :=
  if jsTruthy v then v else .arr .nil

/-- Return shape of `loadPrimaryRag`.  `characterId` and `characterName`
are typed `string` in the source but hold whatever the identity JSON
supplies, so they are `JsVal`s here. -/
structure PrimaryRagResult where
  context : Str
  guardrails : JsVal
  characterId : JsVal
  characterName : JsVal
  deriving DecidableEq

/-- Model of `loadPrimaryRag`, taking the `readJsonSafe` results of the
three knowledge files as arguments (a missing or malformed file yields the
empty object `{}`). -/
def loadPrimaryRag (identity style guardrails : JsVal) (characterSlug : Str) :
    PrimaryRagResult :=
  let characterId :=
    if jsTruthy (jsGet identity "character_id".data) then jsGet identity "character_id".data
    else .str characterSlug
  let characterName :=
    let nm := jsGet (jsGet identity "character".data) "name".data
    if jsTruthy nm then nm else .str characterSlug
  let backgroundFacts :=
    match jsGet identity "background".data with
    | .arr es =>
      joinStrList "\n".data
        ((((jsArrToList es).map (fun item =>
            match item with
            | .str s => JsVal.str s
            | v =>
              let f := jsGet v "fact".data
              if jsTruthy f then f else .str [])).filter jsTruthy).map jsToString)
    | _ => []
  let virtuesSection := formatVirtues (jsGet identity "virtues".data)
  let teachingGuidanceSection :=
    formatArraySection "Teaching Guidance".data (jsOrEmptyArr (jsGet identity "teaching_guidance".data))
  let coachLinesSection :=
    formatArraySection "Coach Lines".data (jsOrEmptyArr (jsGet identity "coach_lines".data))
  let quotesSection :=
    formatArraySection "Quotes".data (jsOrEmptyArr (jsGet identity "quotes".data))
  let dailyMissionsSection :=
    formatArraySection "Daily Missions".data (jsOrEmptyArr (jsGet identity "daily_missions".data))
  let context := joinStrList "\n".data
    (([formatSection "Identity".data identity,
       formatSection "Style".data style,
       (if !backgroundFacts.isEmpty then "## Background Facts\n".data ++ backgroundFacts ++ ['\n'] else []),
       virtuesSection,
       teachingGuidanceSection,
       coachLinesSection,
       quotesSection,
       dailyMissionsSection]).filter (fun s => !s.isEmpty))
  ⟨context, guardrails, characterId, characterName⟩

example :
    (loadPrimaryRag (.obj .nil) (.obj .nil) (.obj .nil) "ada".data).context
      = "## Identity\n".data ++ ['{', '}'] ++ "\n\n## Style\n".data ++ ['{', '}'] ++ ['\n'] := by
  decide
example :
    enforceSafety "hi".data ⟨["secret".data], [], []⟩ .null "no".data = "hi".data := by decide
example :
    enforceSafety "the Secret".data ⟨["secret".data], [], []⟩ .null "no".data = "no".data := by
  decide
example :
    enforceSafety "my EMAIL".data ⟨[], [], []⟩ .null "no".data = "no".data := by decide

/-!
## Secondary provider (`backend/services/gemini_client.ts`, `callGemini`)

The remote calls are modelled by oracles: `req` maps a model name to the
outcome of `requestGemini` for it (the contents array is fixed for a given
request, so it is folded into the oracle), and `listM` is the outcome of
`listGeminiModels` (already filtered to generation-capable model names, as
that function returns).
-/

/-- A failed provider call: the `statusCode` attached to the error
(`0` when absent) and its message. -/
structure GemErr where
  status : Nat
  msg : Str
  deriving DecidableEq

/-- `DEFAULT_GEMINI_MODEL`. -/
def DEFAULT_GEMINI_MODEL : Str := "gemini-1.5-flash".data

/-- `FALLBACK_MODELS`. -/
def FALLBACK_MODELS : List Str := ["gemini-1.5-pro".data, "gemini-1.0-pro".data]

/-- `PREFERRED_MODELS`. -/
def PREFERRED_MODELS : List Str := DEFAULT_GEMINI_MODEL :: FALLBACK_MODELS

/-- Model of the candidate de-duplication
`filter((value, index, self) => self.indexOf(value) === index)`:
keep the first occurrence of each element. -/
def jsDedup (l : List Str) : List Str :=
  l.foldl (fun acc x => if acc.contains x then acc else acc ++ [x]) []

/-- The de-duplicated candidate model list built by `callGemini` from the
`GEMINI_MODEL` environment value (empty when unset). -/
def geminiModelList (envModel : Str) : List Str :=
  let configured := if envModel.isEmpty then DEFAULT_GEMINI_MODEL else envModel
  jsDedup ([configured, DEFAULT_GEMINI_MODEL] ++ FALLBACK_MODELS)

/-- Result of the candidate loop in `callGemini`: the models requested in
order, the successful text if any, and the last error raised by a
request (the loop's `lastError` when no request succeeded). -/
structure GemLoopRes where
  requested : List Str
  success : Option Str
  lastError : Option GemErr
  deriving DecidableEq

/-- Model of the candidate loop of `callGemini`: request each model in
turn; a success returns immediately, a 404 failure advances to the next
candidate, any other failure stops the loop. -/
def geminiLoop (req : Str → Except GemErr Str) : List Str → GemLoopRes
  | [] => ⟨[], none, none⟩
  | m :: rest =>
    match req m with
    | .ok t => ⟨[m], some t, none⟩
    | .error e =>
      if e.status = 404 then
        let r := geminiLoop req rest
        ⟨m :: r.requested, r.success, some (r.lastError.getD e)⟩
      else ⟨[m], none, some e⟩

deriving instance DecidableEq for Except

/-- Execution trace of one `callGemini` call: every model passed to
`requestGemini` in order (including the recovery request), whether
`listGeminiModels` was invoked, and the overall outcome. -/
structure GemTrace where
  requested : List Str
  listedModels : Bool
  result : Except GemErr Str
  deriving DecidableEq

/-- The fallback error of `throw lastError || new Error("Gemini failed")`. -/
def geminiFailedErr : GemErr := ⟨0, "Gemini failed".data⟩

/-- The `Missing GEMINI_API_KEY` error. -/
def missingGeminiKeyErr : GemErr := ⟨0, "Missing GEMINI_API_KEY".data⟩

/-- Model of `callGemini`: check the API key, build the de-duplicated
candidate list, run the candidate loop; if no candidate succeeded, run the
model-discovery recovery step (list models, pick the first preferred model
present, else the first available model, and retry once), and otherwise
surface the last error. -/
def callGemini (apiKey envModel : Str) (req : Str → Except GemErr Str)
    (listM : Except GemErr (List Str)) : GemTrace :=
  if apiKey.isEmpty then ⟨[], false, .error missingGeminiKeyErr⟩
  else
    let models := geminiModelList envModel
    let r := geminiLoop req models
    match r.success with
    | some t => ⟨r.requested, false, .ok t⟩
    | none =>
      match listM with
      | .ok available =>
        let preferred := PREFERRED_MODELS.find? (fun m => available.contains m)
        let fallback := match preferred with
          | some p => some p
          | none => available.head?
        match fallback with
        | some fb =>
          if fb.isEmpty then ⟨r.requested, true, .error (r.lastError.getD geminiFailedErr)⟩
          else
            match req fb with
            | .ok t => ⟨r.requested ++ [fb], true, .ok t⟩
            | .error e => ⟨r.requested ++ [fb], true, .error e⟩
        | none => ⟨r.requested, true, .error (r.lastError.getD geminiFailedErr)⟩
      | .error e => ⟨r.requested, true, .error e⟩

example : geminiModelList [] = [DEFAULT_GEMINI_MODEL, "gemini-1.5-pro".data, "gemini-1.0-pro".data] := by decide

/-!
## Chat request handler (`backend/api/chat_handler.ts`)

The handler is modelled from the moment the request body has been parsed:
HTTP framing, CORS and JSON parsing are external collaborators.  The two
provider calls are modelled by their outcomes (`Except` over the error
message text, which is what the handler inspects); the conversation
history is passed through to the providers unchanged and therefore folded
into those outcomes.  The timestamp `new Date().toISOString()` is a
parameter.
-/

/-- One record given to `logUnansweredQuestion`. -/
structure LogRecord where
  timestamp : Str
  character : Str
  message : Str
  reason : Str
  deriving DecidableEq

/-- Model of `logUnansweredQuestion`: the record is appended unless one of
its required fields is empty (the logger validates and skips such
records); sink failures are swallowed and never affect the response. -/
def logWrite (logs : List LogRecord) (r : LogRecord) : List LogRecord :=
  if r.timestamp.isEmpty || r.character.isEmpty || r.message.isEmpty || r.reason.isEmpty then logs
  else logs ++ [r]

/-- The response sent by the handler (via `sendJson`). -/
inductive ChatOutcome : Type where
  | ok (answer : Str) (shouldRefuse : Bool)
  | badRequest (msg : Str)
  | serverError (msg : Str)
  deriving DecidableEq

/-- Observable outcome of one handler run: the response, the log records
written, and which providers were invoked. -/
structure HandlerOut where
  response : ChatOutcome
  logs : List LogRecord
  calledOpenAI : Bool
  calledGemini : Bool
  deriving DecidableEq

/-- Pipeline input package (`loadPipelineInputs` return shape). -/
structure PipelineInputs where
  prompt : RagPrompt
  primary : PrimaryRagResult
  safety : SafetyConfig
  refusalText : Str
  deriving DecidableEq

/-- Model of the quota-class check on the primary failure message. -/
def isQuotaError (msg : Str) : Bool :=
  containsSub "insufficient_quota".data msg ||
    containsSub "OpenAI error 429".data msg ||
    containsSub "Missing OPENAI_API_KEY".data msg

/-- The quota-class markers, for stating the quota check as a property. -/
def quotaMarkers : List Str :=
  ["insufficient_quota".data, "OpenAI error 429".data, "Missing OPENAI_API_KEY".data]

/-- Common tail of the handler once a raw answer has been produced: log a
model refusal when the raw answer equals the refusal text under
normalization, apply the safety filter, log a safety refusal when the
filtered answer equals the refusal text under normalization, and respond
200 with the filtered answer and the refusal flag. -/
def chatFinish (p : PipelineInputs) (message slug ts rawAnswer : Str)
    (logs : List LogRecord) (calledO calledG : Bool) : HandlerOut :=
  let logs2 :=
    if normalizeL rawAnswer = normalizeL p.refusalText then
      logWrite logs ⟨ts, slug, message, "model_refusal".data⟩
    else logs
  let safeAnswer := enforceSafety rawAnswer p.safety p.primary.guardrails p.refusalText
  let logs3 :=
    if normalizeL safeAnswer = normalizeL p.refusalText then
      logWrite logs2 ⟨ts, slug, message, "safety_refusal".data⟩
    else logs2
  ⟨.ok safeAnswer p.prompt.shouldRefuse, logs3, calledO, calledG⟩

/-- The handler from the point where the pipeline inputs have been loaded:
refuse without any provider call when the refusal flag is set; otherwise
call the primary provider, falling back to the secondary provider exactly
on a quota-class failure and surfacing 500 errors otherwise. -/
def handleAfterPipeline (p : PipelineInputs) (message slug ts : Str)
    (primaryRes secondaryRes : Except Str Str) : HandlerOut :=
  if p.prompt.shouldRefuse then
    chatFinish p message slug ts p.refusalText
      (logWrite [] ⟨ts, slug, message, "empty_context".data⟩) false false
  else
    match primaryRes with
    | .ok t => chatFinish p message slug ts t [] true false
    | .error m =>
      if isQuotaError m then
        match secondaryRes with
        | .ok t => chatFinish p message slug ts t [] true true
        | .error g =>
          ⟨.serverError ("OpenAI failed: ".data ++ m ++ ". Gemini failed: ".data ++ g),
            logWrite [] ⟨ts, slug, message, "gemini_error:".data ++ g⟩, true, true⟩
      else
        ⟨.serverError ("OpenAI failed: ".data ++ m),
          logWrite [] ⟨ts, slug, message, "openai_error:".data ++ m⟩, true, false⟩

/-- The per-request file contents backing `loadPipelineInputs`: the three
knowledge documents of the character (each the `readJsonSafe` result, so
`{}` when missing or malformed), the prompt templates, and the safety
files. -/
structure FsEnv where
  identity : JsVal
  style : JsVal
  guardrails : JsVal
  prompts : PromptFiles
  forbiddenJson : JsVal
  childSafeRules : Str
  escalationPolicy : Str
  deriving DecidableEq

/-- Model of `loadPipelineInputs` (`backend/services/pipeline_runner.ts`). -/
def loadPipelineInputs (env : FsEnv) (characterSlug message : Str) (randIdx : Nat) :
    PipelineInputs :=
  let primary := loadPrimaryRag env.identity env.style env.guardrails characterSlug
  let safety := loadSafetyConfig env.forbiddenJson env.childSafeRules env.escalationPolicy
  let refusalText := buildRefusalText env.prompts.refusal randIdx
  let prompt := buildRagOnlyPrompt
    ⟨message, primary.context, primary.characterName, some refusalText, primary.guardrails⟩
    env.prompts
  ⟨prompt, primary, safety, refusalText⟩

/-- Model of `handleChatRequest` from the parsed request body onward:
normalize the message and character slug, reject missing fields with 400,
load the pipeline inputs and run the main handler logic. -/
def handleChatRequest (rawMessage rawCharacter : Str) (env : FsEnv) (randIdx : Nat)
    (ts : Str) (primaryRes secondaryRes : Except Str Str) : HandlerOut :=
  let message := trimL rawMessage
  let slug := toLowerL (trimL rawCharacter)
  if message.isEmpty then ⟨.badRequest "Missing message".data, [], false, false⟩
  else if slug.isEmpty then ⟨.badRequest "Missing character".data, [], false, false⟩
  else
    handleAfterPipeline (loadPipelineInputs env slug message randIdx) message slug ts
      primaryRes secondaryRes

example :
    (handleChatRequest "hello".data "Ada".data
      ⟨.obj .nil, .obj .nil, .obj .nil, ⟨[], [], [], "I cannot answer that.".data⟩,
        .obj .nil, [], []⟩
      0 "2026-01-01T00:00:00.000Z".data (.ok "Hi there!".data) (.ok "x".data)).response
      = .ok "Hi there!".data false := by decide

/-!
## General lemmas about the string model
-/

theorem isPrefixL_iff : ∀ (n h : Str), isPrefixL n h = true ↔ n <+: h
  | [], h => by simp [isPrefixL]
  | a :: as, [] => by simp [isPrefixL]
  | a :: as, b :: bs => by
    simp [isPrefixL, List.cons_prefix_cons, isPrefixL_iff as bs]

theorem containsSub_iff : ∀ (n h : Str), containsSub n h = true ↔ n <:+: h
  | n, [] => by simp [containsSub, List.isEmpty_iff]
  | n, c :: rest => by
    simp [containsSub, isPrefixL_iff, containsSub_iff n rest, List.infix_cons_iff]

theorem mem_dropWhile_of_neg {p : Char → Bool} {c : Char} (hc : p c = false) :
    ∀ {l : Str}, c ∈ l → c ∈ l.dropWhile p := by
  intro l
  induction l with
  | nil => simp
  | cons a t ih =>
    intro h
    by_cases hp : p a
    · rw [List.dropWhile_cons_of_pos hp]
      rcases List.mem_cons.mp h with h₁ | h₂
      · subst h₁; rw [hp] at hc; cases hc
      · exact ih h₂
    · rw [List.dropWhile_cons_of_neg hp]
      exact h

theorem trimL_isEmpty_false {l : Str} {c : Char} (hmem : c ∈ l) (hc : isWsC c = false) :
    (trimL l).isEmpty = false := by
  have h1 : c ∈ l.dropWhile isWsC := mem_dropWhile_of_neg hc hmem
  have h2 : c ∈ (l.dropWhile isWsC).reverse := List.mem_reverse.mpr h1
  have h3 : c ∈ (l.dropWhile isWsC).reverse.dropWhile isWsC := mem_dropWhile_of_neg hc h2
  have h4 : c ∈ trimL l := List.mem_reverse.mpr h3
  have h5 := List.ne_nil_of_mem h4
  cases hE : (trimL l).isEmpty with
  | false => rfl
  | true => exact absurd (List.isEmpty_iff.mp hE) h5

theorem joinStrList_cons_head (sep : Str) (c : Char) (s : Str) (rest : List Str) :
    ∃ t, joinStrList sep ((c :: s) :: rest) = c :: t := by
  cases rest with
  | nil => exact ⟨s, rfl⟩
  | cons r rs => exact ⟨s ++ sep ++ joinStrList sep (r :: rs), by simp [joinStrList]⟩

/-!
## Safety filter lemmas and claims C5, C6, C7
-/

theorem containsForbiddenTopic_iff (text : Str) (topics : List Str) :
    containsForbiddenTopic text topics = true ↔
      ∃ t ∈ topics, toLowerL t <:+: toLowerL text := by
  simp [containsForbiddenTopic, List.any_eq_true, containsSub_iff]

theorem asksForPersonalInfo_iff (text : Str) :
    asksForPersonalInfo text = true ↔ ∃ k ∈ piiKeywords, k <:+: toLowerL text := by
  simp only [asksForPersonalInfo, piiKeywords, Bool.or_eq_true, containsSub_iff]
  constructor
  · rintro ((((h | h) | h) | h) | h) <;>
      exact ⟨_, by simp, h⟩
  · rintro ⟨k, hk, h⟩
    simp only [List.mem_cons, List.not_mem_nil, or_false] at hk
    rcases hk with rfl | rfl | rfl | rfl | rfl <;> simp [h]

theorem enforceSafety_refusal (s : SafetyConfig) (g : JsVal) (r : Str) :
    enforceSafety r s g r = r := by
  unfold enforceSafety
  split
  · rfl
  · split <;> rfl

/-- C5: for every answer, safety config, guardrails value and refusal text,
`enforceSafety` returns the refusal text when the answer case-insensitively
contains any forbidden-topic substring; otherwise the refusal text when the
answer contains any of the personal-information keywords (address, phone,
email, last name, full name); otherwise the answer unchanged. -/
theorem enforceSafety_spec (a : Str) (s : SafetyConfig) (g : JsVal) (r : Str) :
    enforceSafety a s g r =
      if ∃ t ∈ s.forbiddenTopics, toLowerL t <:+: toLowerL a then r
      else if ∃ k ∈ piiKeywords, k <:+: toLowerL a then r
      else a := by
  by_cases h₁ : ∃ t ∈ s.forbiddenTopics, toLowerL t <:+: toLowerL a
  · simp [enforceSafety, (containsForbiddenTopic_iff a s.forbiddenTopics).mpr h₁, h₁]
  · have hb : containsForbiddenTopic a s.forbiddenTopics = false := by
      rw [Bool.eq_false_iff]
      exact fun hc => h₁ ((containsForbiddenTopic_iff a s.forbiddenTopics).mp hc)
    by_cases h₂ : ∃ k ∈ piiKeywords, k <:+: toLowerL a
    · simp [enforceSafety, hb, h₁, h₂, (asksForPersonalInfo_iff a).mpr h₂]
    · have hp : asksForPersonalInfo a = false := by
        rw [Bool.eq_false_iff]
        exact fun hc => h₂ ((asksForPersonalInfo_iff a).mp hc)
      simp [enforceSafety, hb, hp, h₁, h₂]

/-- C6 counterexample: when the refusal text itself contains a forbidden
topic, `enforceSafety` returns a string that contains a forbidden-topic
substring of the config, refuting the claim as stated. -/
theorem enforceSafety_forbidden_in_output :
    enforceSafety "the secret plan".data ⟨["secret".data], [], []⟩ .null
        "that secret is off limits".data
      = "that secret is off limits".data ∧
    "secret".data ∈ (⟨["secret".data], [], []⟩ : SafetyConfig).forbiddenTopics ∧
    containsSub (toLowerL "secret".data)
      (toLowerL (enforceSafety "the secret plan".data ⟨["secret".data], [], []⟩ .null
        "that secret is off limits".data)) = true := by decide

/-- C6 (amended): provided the refusal text itself contains no
forbidden-topic substring (case-insensitively), the string returned by
`enforceSafety` never contains any forbidden-topic substring from the
config. -/
theorem enforceSafety_no_forbidden_topic (a : Str) (s : SafetyConfig) (g : JsVal) (r : Str)
    (hr : ∀ t ∈ s.forbiddenTopics, containsSub (toLowerL t) (toLowerL r) = false) :
    ∀ t ∈ s.forbiddenTopics,
      containsSub (toLowerL t) (toLowerL (enforceSafety a s g r)) = false := by
  intro t ht
  unfold enforceSafety
  split
  · exact hr t ht
  · split
    · exact hr t ht
    · next h1 _ =>
      have h1' : containsForbiddenTopic a s.forbiddenTopics = false := by
        rw [Bool.eq_false_iff]; exact h1
      simp only [containsForbiddenTopic, List.any_eq_false] at h1'
      rw [Bool.eq_false_iff]
      exact h1' t ht

theorem enforceSafety_no_forbidden_topic_witness :
    containsSub (toLowerL "drugs".data)
      (toLowerL (enforceSafety "tell me about drugs".data ⟨["drugs".data], [], []⟩ .null
        "let us talk about something else".data)) = false :=
  enforceSafety_no_forbidden_topic "tell me about drugs".data ⟨["drugs".data], [], []⟩ .null
    "let us talk about something else".data (by decide) "drugs".data (by decide)

/-- C7: `enforceSafety` is idempotent: applying it to its own output (with
the same config, guardrails and refusal text) returns the same string. -/
theorem enforceSafety_idempotent (a : Str) (s : SafetyConfig) (g : JsVal) (r : Str) :
    enforceSafety (enforceSafety a s g r) s g r = enforceSafety a s g r := by
  unfold enforceSafety
  cases hc : containsForbiddenTopic a s.forbiddenTopics <;>
    cases hp : asksForPersonalInfo a <;>
      simp only [hc, hp, Bool.false_eq_true, if_false, if_true] <;>
        cases hcr : containsForbiddenTopic r s.forbiddenTopics <;>
          cases hpr : asksForPersonalInfo r <;>
            simp [hc, hp, hcr, hpr]

/-!
## Claim C2: the primary context is never empty and the refusal flag is
always false
-/

theorem loadPrimaryRag_context_head (identity style guardrails : JsVal) (slug : Str) :
    ∃ rest, (loadPrimaryRag identity style guardrails slug).context = '#' :: rest := by
  have hdata : "## ".data = ['#', '#', ' '] := rfl
  simp only [loadPrimaryRag, formatSection, hdata]
  simp only [List.cons_append, List.filter_cons, List.isEmpty_cons, Bool.not_false, if_true]
  exact joinStrList_cons_head _ _ _ _

/-- C2: for every character slug and all knowledge-file contents, the
context string returned by `loadPrimaryRag` is non-empty after trimming
(the Identity and Style sections are always included), and consequently the
`shouldRefuse` flag computed by `buildRagOnlyPrompt` from this context is
always false. -/
theorem loadPrimaryRag_context_nonempty (identity style guardrails : JsVal) (slug : Str)
    (question : Str) (character : JsVal) (refusalText : Option Str) (g2 : JsVal)
    (files : PromptFiles) :
    (trimL (loadPrimaryRag identity style guardrails slug).context).isEmpty = false ∧
    (buildRagOnlyPrompt
        ⟨question, (loadPrimaryRag identity style guardrails slug).context, character,
          refusalText, g2⟩ files).shouldRefuse = false := by
  obtain ⟨rest, hctx⟩ := loadPrimaryRag_context_head identity style guardrails slug
  have hne : (trimL (loadPrimaryRag identity style guardrails slug).context).isEmpty = false := by
    rw [hctx]
    exact trimL_isEmpty_false (List.mem_cons_self _ _) (by decide)
  refine ⟨hne, ?_⟩
  simpa [buildRagOnlyPrompt] using hne

/-!
## Claim C1: behaviour on a character with no knowledge files
-/

/-- C1 (evaluation of the code at the failing input): for a character whose
knowledge directory contains no knowledge files (all three documents
degrade to the empty object), a chat request is NOT refused: the built
context is non-empty, the `shouldRefuse` flag is false, the primary
provider is invoked and its answer is returned — contradicting the claim
that such a request always returns a refusal with no provider invoked. -/
theorem emptyKnowledge_not_refused :
    handleChatRequest "hello".data "ada".data
        ⟨.obj .nil, .obj .nil, .obj .nil, ⟨[], [], [], "I cannot answer that.".data⟩,
          .obj .nil, [], []⟩
        0 "2026-01-01T00:00:00.000Z".data (.ok "Hi there!".data) (.ok "x".data)
      = ⟨.ok "Hi there!".data false, [], true, false⟩ ∧
    (loadPipelineInputs
        ⟨.obj .nil, .obj .nil, .obj .nil, ⟨[], [], [], "I cannot answer that.".data⟩,
          .obj .nil, [], []⟩ "ada".data "hello".data 0).prompt.shouldRefuse = false := by
  decide

/-!
## Claim C8: the refusal flag and the provider gate
-/

/-- C8: the `shouldRefuse` flag of the prompt bundle is true iff the
supplied context is empty after trimming; it does not depend on the
guardrails; and in the handler it is the sole condition under which
provider invocation is bypassed (the primary provider is called exactly
when the flag is false). -/
theorem shouldRefuse_iff_empty_context (input : RagAnswerInput) (files : PromptFiles)
    (q ctx : Str) (ch : JsVal) (rt : Option Str) (g₁ g₂ : JsVal)
    (p : PipelineInputs) (message slug ts : Str) (pr sr : Except Str Str) :
    ((buildRagOnlyPrompt input files).shouldRefuse = true ↔ trimL input.context = []) ∧
    ((buildRagOnlyPrompt ⟨q, ctx, ch, rt, g₁⟩ files).shouldRefuse
      = (buildRagOnlyPrompt ⟨q, ctx, ch, rt, g₂⟩ files).shouldRefuse) ∧
    ((handleAfterPipeline p message slug ts pr sr).calledOpenAI
      = !p.prompt.shouldRefuse) := by
  refine ⟨?_, rfl, ?_⟩
  · simp [buildRagOnlyPrompt, List.isEmpty_iff]
  · cases hsr : p.prompt.shouldRefuse with
    | true => simp [handleAfterPipeline, hsr, chatFinish]
    | false =>
      cases pr with
      | ok t => simp [handleAfterPipeline, hsr, chatFinish]
      | error m =>
        by_cases hq : isQuotaError m = true
        · cases sr <;> simp [handleAfterPipeline, hsr, hq, chatFinish]
        · simp only [Bool.not_eq_true] at hq
          simp [handleAfterPipeline, hsr, hq, chatFinish]

/-!
## Claim C10: the three log entries of the empty-context path
-/

/-- C10: on the empty-context refusal path (the refusal flag is set), the
handler writes exactly three log entries for the single request — reason
`empty_context`, then `model_refusal`, then `safety_refusal` — and
responds 200 with the refusal text: the raw answer is the refusal text,
and the safety filter maps the refusal text to itself, so both
normalized comparisons succeed. -/
theorem emptyContext_three_logs (p : PipelineInputs) (message slug ts : Str)
    (pr sr : Except Str Str)
    (hsr : p.prompt.shouldRefuse = true)
    (hm : message.isEmpty = false) (hs : slug.isEmpty = false)
    (ht : ts.isEmpty = false) :
    (handleAfterPipeline p message slug ts pr sr).logs =
      [⟨ts, slug, message, "empty_context".data⟩,
       ⟨ts, slug, message, "model_refusal".data⟩,
       ⟨ts, slug, message, "safety_refusal".data⟩] ∧
    (handleAfterPipeline p message slug ts pr sr).response = .ok p.refusalText true ∧
    (handleAfterPipeline p message slug ts pr sr).calledOpenAI = false ∧
    (handleAfterPipeline p message slug ts pr sr).calledGemini = false := by
  have hsafe := enforceSafety_refusal p.safety p.primary.guardrails p.refusalText
  simp [handleAfterPipeline, hsr, chatFinish, hsafe, logWrite, hm, hs, ht]

theorem emptyContext_three_logs_witness :
    (handleAfterPipeline
        ⟨⟨[], [], true⟩, ⟨[], .null, .null, .null⟩, ⟨[], [], []⟩, "I cannot help.".data⟩
        "hello".data "ada".data "t".data (.ok []) (.ok [])).logs =
      [⟨"t".data, "ada".data, "hello".data, "empty_context".data⟩,
       ⟨"t".data, "ada".data, "hello".data, "model_refusal".data⟩,
       ⟨"t".data, "ada".data, "hello".data, "safety_refusal".data⟩] :=
  (emptyContext_three_logs
    ⟨⟨[], [], true⟩, ⟨[], .null, .null, .null⟩, ⟨[], [], []⟩, "I cannot help.".data⟩
    "hello".data "ada".data "t".data (.ok []) (.ok [])
    rfl (by decide) (by decide) (by decide)).1

/-!
## Lemmas about the template scanner (for claim C9)
-/

theorem isWordChar_not_ws {c : Char} (h : isWordChar c = true) : isWsC c = false := by
  rw [Bool.eq_false_iff]
  intro hw
  simp only [isWsC, Bool.or_eq_true, decide_eq_true_eq] at hw
  rcases hw with ((rfl | rfl) | rfl) | rfl <;> exact absurd h (by decide)

theorem isPathChar_not_ws {c : Char} (h : isPathChar c = true) : isWsC c = false := by
  rw [Bool.eq_false_iff]
  intro hw
  simp only [isWsC, Bool.or_eq_true, decide_eq_true_eq] at hw
  rcases hw with ((rfl | rfl) | rfl) | rfl <;> exact absurd h (by decide)

theorem isPathChar_ne_lbrace {c : Char} (h : isPathChar c = true) : c ≠ '{' :=
  fun hEq => absurd (hEq ▸ h) (by decide)

theorem isWordChar_ne_lbrace {c : Char} (h : isWordChar c = true) : c ≠ '{' :=
  fun hEq => absurd (hEq ▸ h) (by decide)

theorem takeWhile_all_append {p : Char → Bool} :
    ∀ (xs : Str) {a : Char} (ys : Str),
      (∀ c ∈ xs, p c = true) → p a = false → (xs ++ a :: ys).takeWhile p = xs
  | [], a, ys, _, ha => by simp [List.takeWhile_cons, ha]
  | x :: xs, a, ys, h, ha => by
    have hx : p x = true := h x (by simp)
    simp only [List.cons_append, List.takeWhile_cons, hx, if_true]
    rw [takeWhile_all_append xs ys (fun c hc => h c (by simp [hc])) ha]

theorem dropWhile_all_append {p : Char → Bool} :
    ∀ (xs : Str) {a : Char} (ys : Str),
      (∀ c ∈ xs, p c = true) → p a = false → (xs ++ a :: ys).dropWhile p = a :: ys
  | [], a, ys, _, ha => by simp [List.dropWhile_cons, ha]
  | x :: xs, a, ys, h, ha => by
    have hx : p x = true := h x (by simp)
    simp only [List.cons_append, List.dropWhile_cons, hx, if_true]
    exact dropWhile_all_append xs ys (fun c hc => h c (by simp [hc])) ha

theorem dropWhile_head_neg {p : Char → Bool} :
    ∀ {l : Str} {a : Char} {t : Str}, l.dropWhile p = a :: t → p a = false := by
  intro l
  induction l with
  | nil => intro a t h; simp at h
  | cons x xs ih =>
    intro a t h
    by_cases px : p x
    · rw [List.dropWhile_cons_of_pos px] at h
      exact ih h
    · rw [List.dropWhile_cons_of_neg px] at h
      injection h with h₁ _
      subst h₁
      exact Bool.eq_false_iff.mpr px

theorem tryMatchAt_none_head {isTok : Char → Bool} {c : Char} {cs : Str}
    (h : c ≠ '{') : tryMatchAt isTok (c :: cs) = none := by
  cases cs with
  | nil => simp [tryMatchAt]
  | cons c₂ cs' => simp [tryMatchAt, h]

theorem tryMatchAt_none_second {isTok : Char → Bool} {c₂ : Char} {cs : Str}
    (h : c₂ ≠ '{') : tryMatchAt isTok ('{' :: c₂ :: cs) = none := by
  simp [tryMatchAt, h]

theorem tryMatchAt_token {isTok : Char → Bool} (tok rest : Str)
    (hne : tok ≠ []) (hall : ∀ c ∈ tok, isTok c = true)
    (hnws : ∀ c ∈ tok, isWsC c = false) (hbrace : isTok '}' = false) :
    tryMatchAt isTok ('{' :: '{' :: (tok ++ '}' :: '}' :: rest)) = some (tok, rest) := by
  have h1 : (tok ++ '}' :: '}' :: rest).dropWhile isWsC = tok ++ '}' :: '}' :: rest := by
    cases tok with
    | nil => exact absurd rfl hne
    | cons t₀ t' =>
      simp only [List.cons_append]
      exact List.dropWhile_cons_of_neg (by simp [hnws t₀ (by simp)])
  have h2 : (tok ++ '}' :: '}' :: rest).takeWhile isTok = tok :=
    takeWhile_all_append tok ('}' :: rest) hall hbrace
  have h3 : (tok ++ '}' :: '}' :: rest).dropWhile isTok = '}' :: '}' :: rest :=
    dropWhile_all_append tok ('}' :: rest) hall hbrace
  have h5 : tok.isEmpty = false := by
    cases tok with
    | nil => exact absurd rfl hne
    | cons t₀ t' => rfl
  simp only [tryMatchAt, if_pos rfl, h1, h2, h3, h5, Bool.false_eq_true, if_false]
  have h4 : (('}' : Char) :: '}' :: rest).dropWhile isWsC = '}' :: '}' :: rest :=
    List.dropWhile_cons_of_neg (by decide)
  rw [h4]
  simp

theorem tryMatchAt_word_dotted (tok rest : Str)
    (hchars : ∀ c ∈ tok, isPathChar c = true) (hdot : '.' ∈ tok) :
    tryMatchAt isWordChar ('{' :: '{' :: (tok ++ '}' :: '}' :: rest)) = none := by
  have hsplit : tok.takeWhile isWordChar ++ tok.dropWhile isWordChar = tok :=
    List.takeWhile_append_dropWhile ..
  have hd_ne : tok.dropWhile isWordChar ≠ [] := by
    intro hnil
    have htw : tok.takeWhile isWordChar = tok := by
      conv_rhs => rw [← hsplit]
      rw [hnil, List.append_nil]
    have hdot' : '.' ∈ tok.takeWhile isWordChar := by rw [htw]; exact hdot
    exact absurd (List.mem_takeWhile_imp hdot') (by decide)
  obtain ⟨d₀, d₁, hd⟩ : ∃ d₀ d₁, tok.dropWhile isWordChar = d₀ :: d₁ := by
    cases hcase : tok.dropWhile isWordChar with
    | nil => exact absurd hcase hd_ne
    | cons x xs => exact ⟨x, xs, rfl⟩
  have hd₀w : isWordChar d₀ = false := dropWhile_head_neg hd
  have hd₀tok : d₀ ∈ tok := by
    rw [← hsplit, hd]
    simp
  have hd₀dot : d₀ = '.' := by
    have hp := hchars d₀ hd₀tok
    simp only [isPathChar, hd₀w, Bool.false_or, decide_eq_true_eq] at hp
    exact hp
  set a := tok.takeWhile isWordChar with haDef
  have ha_all : ∀ c ∈ a, isWordChar c = true := fun c hc => List.mem_takeWhile_imp hc
  have hX : tok ++ '}' :: '}' :: rest = a ++ d₀ :: (d₁ ++ '}' :: '}' :: rest) := by
    rw [← hsplit, hd]
    simp
  have h2 : (tok ++ '}' :: '}' :: rest).takeWhile isWordChar = a := by
    rw [hX]
    exact takeWhile_all_append a (d₁ ++ '}' :: '}' :: rest) ha_all hd₀w
  have h1 : (tok ++ '}' :: '}' :: rest).dropWhile isWsC = tok ++ '}' :: '}' :: rest := by
    cases htok : tok with
    | nil => exact absurd (htok ▸ hdot) (List.not_mem_nil _)
    | cons t₀ t' =>
      simp only [List.cons_append]
      exact List.dropWhile_cons_of_neg
        (by simp [isPathChar_not_ws (hchars t₀ (by simp [htok]))])
  cases hae : a.isEmpty with
  | true =>
    simp only [tryMatchAt, if_pos rfl, h1, h2, hae]
    simp
  | false =>
    have h3 : (tok ++ '}' :: '}' :: rest).dropWhile isWordChar
        = d₀ :: (d₁ ++ '}' :: '}' :: rest) := by
      rw [hX]
      exact dropWhile_all_append a (d₁ ++ '}' :: '}' :: rest) ha_all hd₀w
    have h4 : (d₀ :: (d₁ ++ '}' :: '}' :: rest)).dropWhile isWsC
        = d₀ :: (d₁ ++ '}' :: '}' :: rest) :=
      List.dropWhile_cons_of_neg (by rw [hd₀dot]; decide)
    simp only [tryMatchAt, if_pos rfl, h1, h2, hae, Bool.false_eq_true, if_false, h3, h4,
      hd₀dot]
    rfl

theorem scanReplace_append_no_brace {isTok : Char → Bool} {repl : Str → Str} :
    ∀ (a rest : Str), (∀ c ∈ a, c ≠ '{') →
      scanReplace isTok repl (a ++ rest) = a ++ scanReplace isTok repl rest
  | [], rest, _ => by simp
  | c :: a', rest, h => by
    have hc : c ≠ '{' := h c (by simp)
    rw [List.cons_append, scanReplace_cons_none (tryMatchAt_none_head hc),
      scanReplace_append_no_brace a' rest (fun x hx => h x (by simp [hx]))]
    rfl

theorem scanReplace_id_no_brace {isTok : Char → Bool} {repl : Str → Str}
    (a : Str) (h : ∀ c ∈ a, c ≠ '{') : scanReplace isTok repl a = a := by
  have h2 := @scanReplace_append_no_brace isTok repl a [] h
  rw [List.append_nil] at h2
  rw [h2, scanReplace_nil, List.append_nil]

theorem scanReplace_at_token {isTok : Char → Bool} {repl : Str → Str} (tok rest : Str)
    (hne : tok ≠ []) (hall : ∀ c ∈ tok, isTok c = true)
    (hnws : ∀ c ∈ tok, isWsC c = false) (hbrace : isTok '}' = false) :
    scanReplace isTok repl ('{' :: '{' :: (tok ++ '}' :: '}' :: rest))
      = repl tok ++ scanReplace isTok repl rest :=
  scanReplace_cons_some (tryMatchAt_token tok rest hne hall hnws hbrace)

theorem scanReplace_word_skips_dotted {repl : Str → Str} (tok rest : Str)
    (hchars : ∀ c ∈ tok, isPathChar c = true) (hdot : '.' ∈ tok) :
    scanReplace isWordChar repl ('{' :: '{' :: (tok ++ '}' :: '}' :: rest))
      = '{' :: '{' :: (tok ++ '}' :: '}' :: scanReplace isWordChar repl rest) := by
  rw [scanReplace_cons_none (tryMatchAt_word_dotted tok rest hchars hdot)]
  have htok_ne : tok ≠ [] := List.ne_nil_of_mem hdot
  obtain ⟨t₀, t', htok⟩ : ∃ t₀ t', tok = t₀ :: t' := by
    cases tok with
    | nil => exact absurd rfl htok_ne
    | cons x xs => exact ⟨x, xs, rfl⟩
  subst htok
  have ht₀ : isPathChar t₀ = true := hchars t₀ (by simp)
  rw [List.cons_append, scanReplace_cons_none (tryMatchAt_none_second (isPathChar_ne_lbrace ht₀))]
  have hskip : scanReplace isWordChar repl ((t₀ :: t') ++ '}' :: '}' :: rest)
      = (t₀ :: t') ++ scanReplace isWordChar repl ('}' :: '}' :: rest) :=
    scanReplace_append_no_brace (t₀ :: t') ('}' :: '}' :: rest)
      (fun c hc => isPathChar_ne_lbrace (hchars c hc))
  rw [List.cons_append] at hskip
  rw [hskip,
    scanReplace_cons_none (tryMatchAt_none_head (by decide)),
    scanReplace_cons_none (tryMatchAt_none_head (by decide))]

/-!
## Claim C9: template token substitution
-/

/-- C9 counterexample: the second replacement pass does not rescan the text
it substitutes, so a placeholder contained in a variable value survives in
the output: rendering `{{a.b}}` where `a.b` resolves to the string
`{{c}}` yields the literal placeholder `{{c}}` (whose content `c` is a
word, and whose key is even present in the variable map), refuting the
claim that no such placeholder survives. -/
theorem renderTemplate_placeholder_survives :
    renderTemplate ['{', '{', 'a', '.', 'b', '}', '}']
        (.cons ['a'] (.obj (.cons ['b'] (.str ['{', '{', 'c', '}', '}']) .nil))
          (.cons ['c'] (.str "hi".data) .nil))
      = ['{', '{', 'c', '}', '}'] ∧
    tryMatchAt isWordChar
        (renderTemplate ['{', '{', 'a', '.', 'b', '}', '}']
          (.cons ['a'] (.obj (.cons ['b'] (.str ['{', '{', 'c', '}', '}']) .nil))
            (.cons ['c'] (.str "hi".data) .nil)))
      = some (['c'], []) := by decide

/-- C9 (amended): each unresolved token occurring in the template itself is
replaced by the empty string — a flat `{{key}}` whose key is absent from
the variable map, and a dotted `{{a.b.c}}` whose path has a missing
segment or traverses a non-object — and an array value reached via a
dotted path is rendered as its elements joined by `". "`.  (The original
claim's conclusion that no literal placeholder survives in the output is
false: replacement text substituted by the second pass is not rescanned,
so placeholders inside variable values survive.)  The surrounding template
text `a`, `b` is placeholder-free (brace-free). -/
theorem renderTemplate_token_resolution (vars : JsObj) (a b tok : Str)
    (ha : ∀ c ∈ a, c ≠ '{') (hb : ∀ c ∈ b, c ≠ '{') :
    (tok ≠ [] → (∀ c ∈ tok, isWordChar c = true) →
      (jsObjToList vars).find? (fun p => p.1 = tok) = none →
      renderTemplate (a ++ '{' :: '{' :: (tok ++ '}' :: '}' :: b)) vars = a ++ b) ∧
    ((∀ c ∈ tok, isPathChar c = true) → '.' ∈ tok →
      pathResolve (.obj vars) (splitOnChar '.' tok) = none →
      renderTemplate (a ++ '{' :: '{' :: (tok ++ '}' :: '}' :: b)) vars = a ++ b) ∧
    (∀ es, (∀ c ∈ tok, isPathChar c = true) → '.' ∈ tok →
      pathResolve (.obj vars) (splitOnChar '.' tok) = some (.arr es) →
      renderTemplate (a ++ '{' :: '{' :: (tok ++ '}' :: '}' :: b)) vars
        = a ++ (joinStrList ". ".data ((jsArrToList es).map joinElemStr) ++ b)) := by
  have hab : ∀ c ∈ a ++ b, c ≠ '{' := by
    intro c hc
    rcases List.mem_append.mp hc with h | h
    · exact ha c h
    · exact hb c h
  refine ⟨?_, ?_, ?_⟩
  · intro hne hall hfind
    unfold renderTemplate
    rw [scanReplace_append_no_brace a _ ha,
      scanReplace_at_token tok b hne hall (fun c hc => isWordChar_not_ws (hall c hc))
        (by decide),
      scanReplace_id_no_brace b hb]
    have hrepl : templateFlatValue vars tok = [] := by
      simp [templateFlatValue, hfind]
    rw [hrepl, List.nil_append, scanReplace_id_no_brace (a ++ b) hab]
  · intro hchars hdot hres
    unfold renderTemplate
    rw [scanReplace_append_no_brace a _ ha,
      scanReplace_word_skips_dotted tok b hchars hdot,
      scanReplace_id_no_brace b hb,
      scanReplace_append_no_brace a _ ha,
      scanReplace_at_token tok b (List.ne_nil_of_mem hdot) hchars
        (fun c hc => isPathChar_not_ws (hchars c hc)) (by decide),
      scanReplace_id_no_brace b hb]
    have hrepl : templatePathValue vars tok = [] := by
      simp [templatePathValue, hres]
    rw [hrepl, List.nil_append]
  · intro es hchars hdot hres
    unfold renderTemplate
    rw [scanReplace_append_no_brace a _ ha,
      scanReplace_word_skips_dotted tok b hchars hdot,
      scanReplace_id_no_brace b hb,
      scanReplace_append_no_brace a _ ha,
      scanReplace_at_token tok b (List.ne_nil_of_mem hdot) hchars
        (fun c hc => isPathChar_not_ws (hchars c hc)) (by decide),
      scanReplace_id_no_brace b hb]
    have hrepl : templatePathValue vars tok
        = joinStrList ". ".data ((jsArrToList es).map joinElemStr) := by
      simp [templatePathValue, hres]
    rw [hrepl]

theorem renderTemplate_token_resolution_witness :
    renderTemplate ("x:".data ++ '{' :: '{' :: (['q'] ++ '}' :: '}' :: ";y".data)) .nil
      = "x:".data ++ ";y".data ∧
    renderTemplate ("x:".data ++ '{' :: '{' :: (['a', '.', 'b'] ++ '}' :: '}' :: ";y".data))
        .nil
      = "x:".data ++ ";y".data ∧
    renderTemplate ("x:".data ++ '{' :: '{' :: (['a', '.', 'b'] ++ '}' :: '}' :: ";y".data))
        (.cons ['a'] (.obj (.cons ['b']
          (.arr (.cons (.str ['u']) (.cons (.str ['v']) .nil))) .nil)) .nil)
      = "x:".data ++ (joinStrList ". ".data
          ((jsArrToList (.cons (.str ['u']) (.cons (.str ['v']) .nil))).map joinElemStr)
          ++ ";y".data) := by
  refine ⟨?_, ?_, ?_⟩
  · exact (renderTemplate_token_resolution .nil "x:".data ";y".data ['q']
      (by decide) (by decide)).1 (by decide) (by decide) (by decide)
  · exact (renderTemplate_token_resolution .nil "x:".data ";y".data ['a', '.', 'b']
      (by decide) (by decide)).2.1 (by decide) (by decide) (by decide)
  · exact (renderTemplate_token_resolution
      (.cons ['a'] (.obj (.cons ['b']
        (.arr (.cons (.str ['u']) (.cons (.str ['v']) .nil))) .nil)) .nil)
      "x:".data ";y".data ['a', '.', 'b'] (by decide) (by decide)).2.2
      (.cons (.str ['u']) (.cons (.str ['v']) .nil)) (by decide) (by decide) (by decide)

/-!
## Claim C3: candidate iteration and the recovery step of `callGemini`
-/

/-- C3 counterexample: with a non-404 failure (status 500) on the very
first candidate, `callGemini` aborts the candidate list after a single
request — the remaining two candidates are never tried — but still
performs the model-discovery recovery step (`listedModels` is true).  The
recovery step is therefore not reserved for the case where every candidate
was exhausted via not-found responses, refuting the claim as stated. -/
theorem callGemini_recovery_after_non404 :
    (callGemini "k".data []
        (fun m => if m = DEFAULT_GEMINI_MODEL then .error ⟨500, "boom".data⟩
                  else .ok "hi".data)
        (.ok ["gemini-1.5-pro".data]))
      = ⟨[DEFAULT_GEMINI_MODEL, "gemini-1.5-pro".data], true, .ok "hi".data⟩ ∧
    (geminiLoop
        (fun m => if m = DEFAULT_GEMINI_MODEL then .error ⟨500, "boom".data⟩
                  else .ok "hi".data)
        (geminiModelList [])).requested = [DEFAULT_GEMINI_MODEL] ∧
    (geminiModelList []).length = 3 := by decide

/-- C3 (amended): a 404 failure for a candidate advances to the next
candidate in the de-duplicated list and any other failure aborts the
candidate list immediately; the model-discovery recovery step is performed
exactly when the candidate loop produced no success — whether through 404
exhaustion of the whole list or through a non-404 abort — and a loop
success is returned as-is with no recovery. -/
theorem callGemini_fallback_behaviour (apiKey envModel : Str)
    (req : Str → Except GemErr Str) (listM : Except GemErr (List Str))
    (hk : apiKey.isEmpty = false) :
    ((callGemini apiKey envModel req listM).listedModels = true ↔
      (geminiLoop req (geminiModelList envModel)).success = none) ∧
    (∀ s, (geminiLoop req (geminiModelList envModel)).success = some s →
      (callGemini apiKey envModel req listM).result = .ok s ∧
      (callGemini apiKey envModel req listM).requested
        = (geminiLoop req (geminiModelList envModel)).requested) ∧
    (∀ m rest e, req m = .error e → e.status = 404 →
      (geminiLoop req (m :: rest)).requested = m :: (geminiLoop req rest).requested ∧
      (geminiLoop req (m :: rest)).success = (geminiLoop req rest).success) ∧
    (∀ m rest e, req m = .error e → e.status ≠ 404 →
      geminiLoop req (m :: rest) = ⟨[m], none, some e⟩) := by
  refine ⟨?_, ?_, ?_, ?_⟩
  · cases hs : (geminiLoop req (geminiModelList envModel)).success with
    | some t => simp [callGemini, hk, hs]
    | none =>
      cases listM with
      | error e => simp [callGemini, hk, hs]
      | ok available =>
        simp only [callGemini, hk, Bool.false_eq_true, if_false, hs]
        split <;> (try split) <;> (try split) <;> simp
  · intro s hs
    simp [callGemini, hk, hs]
  · intro m rest e herr h404
    simp [geminiLoop, herr, h404]
  · intro m rest e herr h404
    simp [geminiLoop, herr, h404]

theorem callGemini_fallback_behaviour_witness :
    (callGemini "k".data "c".data
        (fun m => if m = "a".data then .error ⟨404, []⟩
                  else if m = "b".data then .error ⟨500, []⟩
                  else .ok "t".data)
        (.ok [])).result = .ok "t".data ∧
    (geminiLoop
        (fun m => if m = "a".data then .error ⟨404, []⟩
                  else if m = "b".data then .error ⟨500, []⟩
                  else .ok "t".data)
        ("a".data :: ["c".data])).requested
      = "a".data ::
        (geminiLoop
          (fun m => if m = "a".data then .error ⟨404, []⟩
                    else if m = "b".data then .error ⟨500, []⟩
                    else .ok "t".data)
          ["c".data]).requested ∧
    geminiLoop
        (fun m => if m = "a".data then .error ⟨404, []⟩
                  else if m = "b".data then .error ⟨500, []⟩
                  else .ok "t".data)
        ("b".data :: ["c".data])
      = ⟨["b".data], none, some ⟨500, []⟩⟩ := by
  have h := callGemini_fallback_behaviour "k".data "c".data
    (fun m => if m = "a".data then .error ⟨404, []⟩
              else if m = "b".data then .error ⟨500, []⟩
              else .ok "t".data)
    (.ok []) (by decide)
  refine ⟨(h.2.1 "t".data (by decide)).1, ?_, ?_⟩
  · exact (h.2.2.1 "a".data ["c".data] ⟨404, []⟩ (by decide) (by decide)).1
  · exact h.2.2.2 "b".data ["c".data] ⟨500, []⟩ (by decide) (by decide)

/-!
## Claim C4: fallback to the secondary provider only on quota-class
failures
-/

theorem isQuotaError_iff (m : Str) :
    isQuotaError m = true ↔ ∃ k ∈ quotaMarkers, k <:+: m := by
  simp only [isQuotaError, quotaMarkers, Bool.or_eq_true, containsSub_iff]
  constructor
  · rintro ((h | h) | h) <;> exact ⟨_, by simp, h⟩
  · rintro ⟨k, hk, h⟩
    simp only [List.mem_cons, List.not_mem_nil, or_false] at hk
    rcases hk with rfl | rfl | rfl <;> simp [h]

/-- C4: when the refusal flag is not set, the secondary provider is invoked
iff the primary call failed with a message containing one of the
quota-class markers (insufficient_quota, the 429 status marker, missing
credentials); for every other primary failure the handler responds 500
immediately with that failure's message and makes no secondary call. -/
theorem secondary_only_on_quota (p : PipelineInputs) (message slug ts : Str)
    (pr sr : Except Str Str) (hsr : p.prompt.shouldRefuse = false) :
    ((handleAfterPipeline p message slug ts pr sr).calledGemini = true ↔
      ∃ m, pr = .error m ∧ ∃ k ∈ quotaMarkers, k <:+: m) ∧
    (∀ m, pr = .error m → isQuotaError m = false →
      (handleAfterPipeline p message slug ts pr sr).response
          = .serverError ("OpenAI failed: ".data ++ m) ∧
        (handleAfterPipeline p message slug ts pr sr).calledGemini = false) := by
  constructor
  · cases pr with
    | ok t => simp [handleAfterPipeline, hsr, chatFinish]
    | error m =>
      by_cases hq : isQuotaError m = true
      · cases sr with
        | ok t =>
          simp only [handleAfterPipeline, hsr, hq, chatFinish]
          simp [← isQuotaError_iff, hq]
        | error g =>
          simp only [handleAfterPipeline, hsr, hq, chatFinish]
          simp [← isQuotaError_iff, hq]
      · simp only [Bool.not_eq_true] at hq
        simp [handleAfterPipeline, hsr, hq, chatFinish, ← isQuotaError_iff]
  · intro m hpr hq
    subst hpr
    simp [handleAfterPipeline, hsr, hq, chatFinish]

theorem secondary_only_on_quota_witness :
    (handleAfterPipeline
        ⟨⟨[], [], false⟩, ⟨['x'], .null, .null, .null⟩, ⟨[], [], []⟩, "no".data⟩
        "hello".data "ada".data "t".data (.error "boom".data) (.ok "y".data)).response
        = .serverError ("OpenAI failed: ".data ++ "boom".data) ∧
    (handleAfterPipeline
        ⟨⟨[], [], false⟩, ⟨['x'], .null, .null, .null⟩, ⟨[], [], []⟩, "no".data⟩
        "hello".data "ada".data "t".data (.error "boom".data) (.ok "y".data)).calledGemini
        = false :=
  (secondary_only_on_quota
    ⟨⟨[], [], false⟩, ⟨['x'], .null, .null, .null⟩, ⟨[], [], []⟩, "no".data⟩
    "hello".data "ada".data "t".data (.error "boom".data) (.ok "y".data) rfl).2
    "boom".data rfl (by decide)
